import Mathlib

/-!
Verification of yarn's `src/PackageCompatibility.js`.

The matcher `isValid`, the per-manifest `check` routine and the batch
driver `init` are embedded shallowly.  Reporter calls become an ordered
list of tagged messages, `reference.addIgnore(true)` becomes a counter,
and the two ways a call can throw (the `invariant` guard and the final
`MessageError`) become an `Option CheckErr` component of the result.
The external semver library is a parameter of the environment.
-/

namespace PackageCompat

/-- One reporter message, tagged with the reporter method used. -/
inductive Message
  | warn (s : String)
  | error (s : String)
  | info (s : String)
deriving DecidableEq, Repr

/-- A throw escaping `check`: either the `invariant(ref, ...)` guard firing
or the final `MessageError` for an incompatible module. -/
inductive CheckErr
  | invariantFault (s : String)
  | messageError (s : String)
deriving DecidableEq, Repr

/-- The package reference carried by a resolved manifest. -/
structure Reference where
  optional : Bool
deriving DecidableEq, Repr

/-- The fields of a manifest that `check` reads.  `os`/`cpu` are `some`
exactly when the JS value is an array, `engines` is `some` exactly when it
is a plain object (as an ordered key/value list), `reference` is `some`
exactly when the reference is present. -/
structure Manifest where
  name : String
  version : String
  os : Option (List String)
  cpu : Option (List String)
  engines : Option (List (String × String))
  reference : Option Reference

/-- Ambient process facts plus the external `semver.satisfies` predicate. -/
structure Env where
  platform : String
  arch : String
  versions : List (String × String)
  satisfies : String → String → Bool

/-- Mutable context of one `check` call: the `didIgnore`/`didError` flags,
the messages reported so far in order, and how many times
`ref.addIgnore(true)` was called. -/
structure CheckState where
  didIgnore : Bool
  didError : Bool
  msgs : List Message
  ignores : Nat
deriving DecidableEq, Repr

/-- The JS test `item[0] === '!'`: the first character is `'!'`
(false on the empty string, where `item[0]` is `undefined`). -/
def hasBang (s : String) : Bool := decide (s.data.head? = some '!')

/-- The JS expression `item.slice(1)`: the string without its first
character. -/
def strip (s : String) : String := String.mk s.data.tail

/-- The loop of `isValid`, carrying the `isBlacklist` flag. -/
def isValidGo (actual : String) : List String → Bool → Bool
  | [], isBlacklist => isBlacklist
  | item :: rest, isBlacklist =>
    if item = actual then true
    else
      if hasBang item then
        if actual = strip item then false else isValidGo actual rest true
      else isValidGo actual rest isBlacklist

/-- `isValid(items, actual)` from the source: whitelist match returns true,
a blacklist hit returns false, otherwise the result is whether any
blacklist entry was seen. -/
def isValid (items : List String) (actual : String) : Bool :=
  isValidGo actual items false

/-- The alias table: `iojs` resolves to `node`. -/
def aliases : List (String × String) := [("iojs", "node")]

/-- Alias resolution: `if (aliases[name]) name = aliases[name]`. -/
def resolveAlias (name : String) : String :=
  match aliases.lookup name with
  | some n => n
  | none => name

/-- The fixed ignore list of engine names never satisfiable. -/
def ignore : List String := ["npm", "teleport"]

/-- `pushError` from `check`: fires the invariant when the reference is
missing; for an optional reference marks it ignored, warns, and emits the
one-time informational message; otherwise reports an error and records
`didError`. -/
def pushError : Option Reference → String → String → CheckState →
    CheckState × Option CheckErr
  | none, _, _, s => (s, some (CheckErr.invariantFault "expected package reference"))
  | some r, human, msg, s =>
    if r.optional then
      let s1 : CheckState :=
        { s with ignores := s.ignores + 1,
                 msgs := s.msgs ++ [Message.warn (human ++ ": " ++ msg)] }
      if s1.didIgnore then (s1, none)
      else
        ({ s1 with
            msgs := s1.msgs ++
              [Message.info (human ++
                " is an optional dependency and failed compatibility check. Excluding it from installation.")],
            didIgnore := true }, none)
    else
      ({ s with msgs := s.msgs ++ [Message.error (human ++ ": " ++ msg)],
                didError := true }, none)

/-- One iteration of the engines loop for the pair `(name, range)`. -/
def engineStep (env : Env) (ref : Option Reference) (human : String)
    (s : CheckState) (p : String × String) : CheckState × Option CheckErr :=
  let name := resolveAlias p.1
  match env.versions.lookup name with
  | some actual =>
    if env.satisfies actual p.2 then (s, none)
    else
      pushError ref human
        ("The engine " ++ name ++ " is incompatible with this module. Expected version " ++
          p.2 ++ ".") s
  | none =>
    if ignore.contains name then (s, none)
    else
      ({ s with msgs := s.msgs ++
          [Message.warn (human ++ ": The engine " ++ name ++ " appears to be invalid.")] },
        none)

/-- The engines loop; a throw from `pushError` aborts it. -/
def engineLoop (env : Env) (ref : Option Reference) (human : String) :
    List (String × String) → CheckState → CheckState × Option CheckErr
  | [], s => (s, none)
  | p :: rest, s =>
    match engineStep env ref human s p with
    | (s1, none) => engineLoop env ref human rest s1
    | (s1, some e) => (s1, some e)

/-- The OS check of `check`. -/
def osStep (env : Env) (info : Manifest) (human : String) (s : CheckState) :
    CheckState × Option CheckErr :=
  match info.os with
  | some os =>
    if isValid os env.platform then (s, none)
    else
      pushError info.reference human
        ("The platform " ++ env.platform ++ " is incompatible with this module.") s
  | none => (s, none)

/-- The CPU check of `check`. -/
def cpuStep (env : Env) (info : Manifest) (human : String) (s : CheckState) :
    CheckState × Option CheckErr :=
  match info.cpu with
  | some cpu =>
    if isValid cpu env.arch then (s, none)
    else
      pushError info.reference human
        ("The CPU architecture " ++ env.arch ++ " is incompatible with this module.") s
  | none => (s, none)

/-- The engines check of `check`. -/
def enginesStep (env : Env) (info : Manifest) (human : String) (s : CheckState) :
    CheckState × Option CheckErr :=
  match info.engines with
  | some l => engineLoop env info.reference human l s
  | none => (s, none)

/-- Sequencing in `check`: a throw skips everything after it. -/
def andThen (r : CheckState × Option CheckErr)
    (f : CheckState → CheckState × Option CheckErr) : CheckState × Option CheckErr :=
  match r with
  | (s, none) => f s
  | (s, some e) => (s, some e)

/-- The final `if (didError) throw new MessageError(...)`. -/
def finalStep (s : CheckState) : CheckState × Option CheckErr :=
  if s.didError then (s, some (CheckErr.messageError "Found incompatible module"))
  else (s, none)

/-- The state at entry of `check`. -/
def initialState : CheckState := ⟨false, false, [], 0⟩

/-- `check(info)`: OS, CPU and engines checks in order, then the fatal
throw when `didError` was recorded. -/
def check (env : Env) (info : Manifest) : CheckState × Option CheckErr :=
  let human := info.name ++ "@" ++ info.version
  andThen
    (andThen
      (andThen (osStep env info human initialState) (cpuStep env info human))
      (enginesStep env info human))
    finalStep

/-- The batch driver `init`: checks the manifests in resolver order,
stopping at the first throw.  It returns the per-manifest states of the
manifests actually checked and the escaping throw, if any. -/
def init (env : Env) : List Manifest → List CheckState × Option CheckErr
  | [] => ([], none)
  | m :: rest =>
    match check env m with
    | (s, some e) => ([s], some e)
    | (s, none) =>
      let r := init env rest
      (s :: r.1, r.2)

/-! ### Specification-side counting functions -/

/-- The string `"!" ++ actual`: the only entry whose blacklist test can
deny `actual`. -/
def bang (actual : String) : String := String.mk ('!' :: actual.data)

/-- Order-free description of `isValid`, valid when the list does not
contain both `actual` and `bang actual`. -/
def isValidSpec (items : List String) (actual : String) : Bool :=
  if actual ∈ items then true
  else if bang actual ∈ items then false
  else items.any hasBang

/-- Whether the OS check of `check` produces a violation. -/
def osViolation (env : Env) (info : Manifest) : Bool :=
  match info.os with
  | some os => !(isValid os env.platform)
  | none => false

/-- Whether the CPU check of `check` produces a violation. -/
def cpuViolation (env : Env) (info : Manifest) : Bool :=
  match info.cpu with
  | some cpu => !(isValid cpu env.arch)
  | none => false

/-- Whether one engines entry produces a violation. -/
def engineViolation (env : Env) (p : String × String) : Bool :=
  match env.versions.lookup (resolveAlias p.1) with
  | some actual => !(env.satisfies actual p.2)
  | none => false

/-- Whether one engines entry produces the advisory invalid-engine warning. -/
def engineAdvisory (env : Env) (p : String × String) : Bool :=
  match env.versions.lookup (resolveAlias p.1) with
  | some _ => false
  | none => !(ignore.contains (resolveAlias p.1))

/-- Number of violations among the declared engines of a manifest. -/
def numEngineViolations (env : Env) (info : Manifest) : Nat :=
  match info.engines with
  | some l => l.countP (engineViolation env)
  | none => 0

/-- Total number of OS/CPU/engine violations of a manifest. -/
def numViolations (env : Env) (info : Manifest) : Nat :=
  (if osViolation env info then 1 else 0) +
  (if cpuViolation env info then 1 else 0) +
  numEngineViolations env info

/-- Total number of advisory invalid-engine warnings of a manifest. -/
def numAdvisories (env : Env) (info : Manifest) : Nat :=
  match info.engines with
  | some l => l.countP (engineAdvisory env)
  | none => 0

/-- Tag tests on messages. -/
def isWarnMsg : Message → Bool
  | Message.warn _ => true
  | _ => false

def isErrorMsg : Message → Bool
  | Message.error _ => true
  | _ => false

def isInfoMsg : Message → Bool
  | Message.info _ => true
  | _ => false

/-- Numbers of warn-, error- and info-level messages in a list. -/
def countWarn (l : List Message) : Nat := l.countP isWarnMsg
def countErr (l : List Message) : Nat := l.countP isErrorMsg
def countInfo (l : List Message) : Nat := l.countP isInfoMsg

end PackageCompat

namespace PackageCompat

/-! ### Matcher lemmas -/

theorem bang_data (actual : String) : (bang actual).data = '!' :: actual.data := rfl

theorem hasBang_bang (actual : String) : hasBang (bang actual) = true := rfl

theorem strip_bang (actual : String) : strip (bang actual) = actual := by
  rw [String.ext_iff]
  rfl

theorem eq_bang_iff {item actual : String} (h : hasBang item = true) :
    item = bang actual ↔ actual = strip item := by
  rcases hd : item.data with _ | ⟨c, tl⟩
  · rw [hasBang, hd] at h
    simp at h
  · rw [hasBang, hd] at h
    simp only [List.head?_cons, Option.some.injEq, decide_eq_true_eq] at h
    subst h
    rw [String.ext_iff, bang_data, hd, strip, hd, String.ext_iff]
    simp [eq_comm]

theorem ne_bang_of_not_hasBang {item actual : String} (h : hasBang item = false) :
    item ≠ bang actual := by
  intro he
  rw [he, hasBang_bang] at h
  cases h

/-- Order-free description of the `isValid` loop, for lists that do not
contain both `actual` and `"!" ++ actual`. -/
theorem isValidGo_eq_spec (actual : String) (items : List String) :
    ∀ b : Bool, ¬(actual ∈ items ∧ bang actual ∈ items) →
      isValidGo actual items b =
        (if actual ∈ items then true
         else if bang actual ∈ items then false
         else (b || items.any hasBang)) := by
  induction items with
  | nil => intro b _; simp [isValidGo]
  | cons item rest ih =>
    intro b h
    rw [isValidGo]
    by_cases hia : item = actual
    · subst hia
      simp [List.mem_cons]
    · rw [if_neg hia]
      have h' : ¬(actual ∈ rest ∧ bang actual ∈ rest) :=
        fun ⟨h1, h2⟩ => h ⟨List.mem_cons_of_mem _ h1, List.mem_cons_of_mem _ h2⟩
      have h1 : (actual = item) = False := eq_false (fun he => hia he.symm)
      by_cases hb : hasBang item = true
      · rw [if_pos hb]
        by_cases hstrip : actual = strip item
        · rw [if_pos hstrip]
          have hbi : item = bang actual := (eq_bang_iff hb).mpr hstrip
          have hA : actual ∉ item :: rest := by
            intro hmem
            exact h ⟨hmem, hbi ▸ List.mem_cons_self item rest⟩
          rw [if_neg hA, if_pos (hbi ▸ List.mem_cons_self item rest)]
        · rw [if_neg hstrip, ih true h']
          have h2 : (bang actual = item) = False :=
            eq_false (fun he => hstrip ((eq_bang_iff hb).mp he.symm))
          simp only [List.mem_cons, h1, h2, false_or, List.any_cons, hb, Bool.true_or,
            Bool.or_true]
      · have hbf : hasBang item = false := by
          rwa [Bool.not_eq_true] at hb
        rw [if_neg hb, ih b h']
        have h2 : (bang actual = item) = False :=
          eq_false (fun he => ne_bang_of_not_hasBang hbf he.symm)
        simp only [List.mem_cons, h1, h2, false_or, List.any_cons, hbf, Bool.false_or]

end PackageCompat

namespace PackageCompat

/-- On a list not containing both `actual` and `"!" ++ actual`, `isValid`
agrees with its order-free description. -/
theorem isValid_eq_spec (items : List String) (actual : String)
    (h : ¬(actual ∈ items ∧ bang actual ∈ items)) :
    isValid items actual = isValidSpec items actual := by
  rw [isValid, isValidGo_eq_spec actual items false h, isValidSpec, Bool.false_or]

/-- The order-free description is invariant under permutation. -/
theorem isValidSpec_perm (items items' : List String) (actual : String)
    (hp : items.Perm items') : isValidSpec items actual = isValidSpec items' actual := by
  have hany : items.any hasBang = items'.any hasBang := by
    rw [Bool.eq_iff_iff]
    simp only [List.any_eq_true]
    exact ⟨fun ⟨x, hx, hpx⟩ => ⟨x, hp.mem_iff.mp hx, hpx⟩,
      fun ⟨x, hx, hpx⟩ => ⟨x, hp.mem_iff.mpr hx, hpx⟩⟩
  rw [isValidSpec, isValidSpec, hany]
  simp only [hp.mem_iff]

/-- C1 (amended): when the declarations do not contain both `actual` and
`"!" ++ actual`, a plain entry equal to `actual` forces `isValid` to return
true, and the result is invariant under any permutation of the entries. -/
theorem isValid_plain_match_and_perm_independent
    (items items' : List String) (actual : String)
    (h : ¬(actual ∈ items ∧ bang actual ∈ items)) (hp : items.Perm items') :
    (actual ∈ items → isValid items actual = true) ∧
    isValid items' actual = isValid items actual := by
  have h' : ¬(actual ∈ items' ∧ bang actual ∈ items') :=
    fun ⟨h1, h2⟩ => h ⟨hp.mem_iff.mpr h1, hp.mem_iff.mpr h2⟩
  constructor
  · intro hm
    rw [isValid_eq_spec items actual h, isValidSpec, if_pos hm]
  · rw [isValid_eq_spec items actual h, isValid_eq_spec items' actual h',
      isValidSpec_perm items items' actual hp]

/-- C1 (counterexample): `["linux", "!linux"]` and its permutation
`["!linux", "linux"]` give different results on `"linux"`, and the second
list contains the plain entry `"linux"` together with `"!linux"` yet
`isValid` returns false on it. -/
theorem isValid_order_counterexample :
    isValid ["linux", "!linux"] "linux" = true ∧
    isValid ["!linux", "linux"] "linux" = false ∧
    (["linux", "!linux"] : List String).Perm ["!linux", "linux"] ∧
    ("linux" : String) ∈ (["!linux", "linux"] : List String) ∧
    bang "linux" ∈ (["!linux", "linux"] : List String) := by
  refine ⟨by decide, by decide, List.Perm.swap _ _ _, by decide, by decide⟩

/-- C1 (witness at a concrete input). -/
theorem isValid_plain_match_and_perm_independent_witness :
    ¬(("win32" : String) ∈ (["win32", "!linux"] : List String) ∧
        bang "win32" ∈ (["win32", "!linux"] : List String)) ∧
    (["win32", "!linux"] : List String).Perm ["!linux", "win32"] ∧
    ((("win32" : String) ∈ (["win32", "!linux"] : List String) →
        isValid ["win32", "!linux"] "win32" = true) ∧
      isValid ["!linux", "win32"] "win32" = isValid ["win32", "!linux"] "win32") :=
  ⟨by decide, List.Perm.swap _ _ _,
    isValid_plain_match_and_perm_independent _ _ _ (by decide) (List.Perm.swap _ _ _)⟩

/-- C5: on declarations containing no blacklist entry, `isValid` is exact
membership, and on the empty list it is false. -/
theorem isValid_pure_whitelist (items : List String) (actual : String)
    (h : ∀ i ∈ items, hasBang i = false) :
    (isValid items actual = true ↔ actual ∈ items) ∧ isValid [] actual = false := by
  refine ⟨?_, rfl⟩
  have hnb : bang actual ∉ items := by
    intro hm
    have hh := h _ hm
    rw [hasBang_bang] at hh
    cases hh
  have h' : ¬(actual ∈ items ∧ bang actual ∈ items) := fun ⟨_, h2⟩ => hnb h2
  rw [isValid_eq_spec items actual h', isValidSpec]
  by_cases hm : actual ∈ items
  · simp [hm]
  · have hany : items.any hasBang = false := by
      simp only [List.any_eq_false]
      intro x hx
      simp [h x hx]
    simp [hm, hnb, hany]

/-- C5 (witness at a concrete input). -/
theorem isValid_pure_whitelist_witness :
    (∀ i ∈ (["win32", "darwin"] : List String), hasBang i = false) ∧
    ((isValid ["win32", "darwin"] "win32" = true ↔
        ("win32" : String) ∈ (["win32", "darwin"] : List String)) ∧
      isValid [] "win32" = false) :=
  ⟨by decide, isValid_pure_whitelist _ _ (by decide)⟩

end PackageCompat

namespace PackageCompat

/-- C6 (amended): on a non-empty all-blacklist declarations list that does
not contain both `actual` and `"!" ++ actual`, `isValid` returns true iff
`actual` differs from every de-prefixed token. -/
theorem isValid_pure_blacklist (items : List String) (actual : String)
    (hne : items ≠ []) (hb : ∀ i ∈ items, hasBang i = true)
    (h : ¬(actual ∈ items ∧ bang actual ∈ items)) :
    (isValid items actual = true ↔ actual ∉ items.map strip) := by
  have hmap : actual ∈ items.map strip ↔ bang actual ∈ items := by
    rw [List.mem_map]
    constructor
    · rintro ⟨i, hi, hstrip⟩
      have := (eq_bang_iff (hb i hi)).mpr hstrip.symm
      exact this ▸ hi
    · intro hm
      exact ⟨bang actual, hm, strip_bang actual⟩
  rw [isValid_eq_spec items actual h, isValidSpec]
  by_cases hm : actual ∈ items
  · have hnb : bang actual ∉ items := fun h2 => h ⟨hm, h2⟩
    rw [if_pos hm]
    simp [hmap, hnb]
  · rw [if_neg hm]
    by_cases hbm : bang actual ∈ items
    · rw [if_pos hbm]
      simp [hmap, hbm]
    · rw [if_neg hbm]
      have hany : items.any hasBang = true := by
        rcases items with _ | ⟨i, rest⟩
        · exact absurd rfl hne
        · simp only [List.any_cons, hb i (List.mem_cons_self i rest), Bool.true_or]
      rw [hany]
      simp [hmap, hbm]

/-- C6 (counterexample): on the all-blacklist list `["!x", "!!x"]` the
value `"!x"` equals the de-prefixed token of `"!!x"`, yet `isValid`
returns true. -/
theorem isValid_pure_blacklist_counterexample :
    (∀ i ∈ (["!x", "!!x"] : List String), hasBang i = true) ∧
    ("!x" : String) ∈ (["!x", "!!x"] : List String).map strip ∧
    isValid ["!x", "!!x"] "!x" = true := by
  refine ⟨by decide, by decide, by decide⟩

/-- C6 (witness at a concrete input). -/
theorem isValid_pure_blacklist_witness :
    (["!win32", "!darwin"] : List String) ≠ [] ∧
    (∀ i ∈ (["!win32", "!darwin"] : List String), hasBang i = true) ∧
    ¬(("linux" : String) ∈ (["!win32", "!darwin"] : List String) ∧
        bang "linux" ∈ (["!win32", "!darwin"] : List String)) ∧
    (isValid ["!win32", "!darwin"] "linux" = true ↔
      ("linux" : String) ∉ (["!win32", "!darwin"] : List String).map strip) :=
  ⟨by decide, by decide, by decide,
    isValid_pure_blacklist _ _ (by decide) (by decide) (by decide)⟩

/-- C10 (amended): an entry equal character-for-character to `actual`
forces `isValid` to return true, even when the entry begins with `'!'`,
provided the list does not also contain `"!" ++ actual`. -/
theorem isValid_full_equality_wins (items : List String) (actual : String)
    (h1 : actual ∈ items) (h2 : bang actual ∉ items) :
    isValid items actual = true := by
  rw [isValid_eq_spec items actual (fun ⟨_, hb⟩ => h2 hb), isValidSpec, if_pos h1]

/-- C10 (counterexample): `"a"` occurs character-for-character in
`["!a", "a"]`, yet `isValid` returns false. -/
theorem isValid_full_equality_counterexample :
    ("a" : String) ∈ (["!a", "a"] : List String) ∧
    isValid ["!a", "a"] "a" = false := by
  refine ⟨by decide, by decide⟩

/-- C10 (witness at the example of the claim: a blacklist-shaped entry
equal to `actual`). -/
theorem isValid_full_equality_wins_witness :
    ("!linux" : String) ∈ (["!linux"] : List String) ∧
    bang "!linux" ∉ (["!linux"] : List String) ∧
    isValid ["!linux"] "!linux" = true :=
  ⟨by decide, by decide, isValid_full_equality_wins _ _ (by decide) (by decide)⟩

end PackageCompat

namespace PackageCompat

/-! ### Effect summaries of one `check` call -/

/-- Effect of a fragment of `check` on the state when the reference is
optional: `v` violations each add one `addIgnore(true)` call and one
warning (plus the one-time informational message), `a` advisory warnings
are added, and no error is recorded. -/
def OptEffect (s s' : CheckState) (v a : Nat) : Prop :=
  s'.didError = s.didError ∧
  s'.ignores = s.ignores + v ∧
  s'.didIgnore = (s.didIgnore || decide (0 < v)) ∧
  countErr s'.msgs = countErr s.msgs ∧
  countWarn s'.msgs = countWarn s.msgs + v + a ∧
  countInfo s'.msgs = countInfo s.msgs +
    (if s.didIgnore then 0 else if 0 < v then 1 else 0)

theorem optEffect_id (s : CheckState) : OptEffect s s 0 0 := by
  unfold OptEffect
  simp

theorem optEffect_comp {s s' s'' : CheckState} {v1 a1 v2 a2 : Nat}
    (h1 : OptEffect s s' v1 a1) (h2 : OptEffect s' s'' v2 a2) :
    OptEffect s s'' (v1 + v2) (a1 + a2) := by
  obtain ⟨e1, i1, g1, ce1, cw1, ci1⟩ := h1
  obtain ⟨e2, i2, g2, ce2, cw2, ci2⟩ := h2
  refine ⟨e2.trans e1, ?_, ?_, ce2.trans ce1, ?_, ?_⟩
  · omega
  · rw [g2, g1, Bool.or_assoc]
    congr 1
    rw [Bool.eq_iff_iff]
    simp only [Bool.or_eq_true, decide_eq_true_eq]
    omega
  · omega
  · rw [ci2, ci1, g1]
    by_cases hdi : s.didIgnore = true
    · simp [hdi]
    · simp only [Bool.not_eq_true] at hdi
      simp only [hdi, Bool.false_or, Bool.false_eq_true, if_false, decide_eq_true_eq]
      by_cases hv1 : 0 < v1
      · have hv12 : 0 < v1 + v2 := by omega
        simp [hv1, hv12]
      · have hv1z : v1 = 0 := by omega
        subst hv1z
        simp [hv1]

theorem countWarn_nil : countWarn [] = 0 := rfl
theorem countErr_nil : countErr [] = 0 := rfl
theorem countInfo_nil : countInfo [] = 0 := rfl

theorem countWarn_append (l1 l2 : List Message) :
    countWarn (l1 ++ l2) = countWarn l1 + countWarn l2 := List.countP_append _ _ _

theorem countErr_append (l1 l2 : List Message) :
    countErr (l1 ++ l2) = countErr l1 + countErr l2 := List.countP_append _ _ _

theorem countInfo_append (l1 l2 : List Message) :
    countInfo (l1 ++ l2) = countInfo l1 + countInfo l2 := List.countP_append _ _ _

theorem countWarn_cons_warn (a : String) (l : List Message) :
    countWarn (Message.warn a :: l) = countWarn l + 1 := by
  simp [countWarn, List.countP_cons, isWarnMsg]

theorem countWarn_cons_error (a : String) (l : List Message) :
    countWarn (Message.error a :: l) = countWarn l := by
  simp [countWarn, List.countP_cons, isWarnMsg]

theorem countWarn_cons_info (a : String) (l : List Message) :
    countWarn (Message.info a :: l) = countWarn l := by
  simp [countWarn, List.countP_cons, isWarnMsg]

theorem countErr_cons_warn (a : String) (l : List Message) :
    countErr (Message.warn a :: l) = countErr l := by
  simp [countErr, List.countP_cons, isErrorMsg]

theorem countErr_cons_error (a : String) (l : List Message) :
    countErr (Message.error a :: l) = countErr l + 1 := by
  simp [countErr, List.countP_cons, isErrorMsg]

theorem countErr_cons_info (a : String) (l : List Message) :
    countErr (Message.info a :: l) = countErr l := by
  simp [countErr, List.countP_cons, isErrorMsg]

theorem countInfo_cons_warn (a : String) (l : List Message) :
    countInfo (Message.warn a :: l) = countInfo l := by
  simp [countInfo, List.countP_cons, isInfoMsg]

theorem countInfo_cons_error (a : String) (l : List Message) :
    countInfo (Message.error a :: l) = countInfo l := by
  simp [countInfo, List.countP_cons, isInfoMsg]

theorem countInfo_cons_info (a : String) (l : List Message) :
    countInfo (Message.info a :: l) = countInfo l + 1 := by
  simp [countInfo, List.countP_cons, isInfoMsg]

theorem pushError_optional_effect (r : Reference) (hr : r.optional = true)
    (human msg : String) (s : CheckState) :
    (pushError (some r) human msg s).2 = none ∧
    OptEffect s (pushError (some r) human msg s).1 1 0 := by
  by_cases hdi : s.didIgnore = true
  · simp [pushError, hr, hdi, OptEffect, countWarn_append, countErr_append,
      countInfo_append, countWarn_cons_warn, countErr_cons_warn, countInfo_cons_warn,
      countWarn_nil, countErr_nil, countInfo_nil]
  · simp only [Bool.not_eq_true] at hdi
    simp [pushError, hr, hdi, OptEffect, countWarn_append, countErr_append,
      countInfo_append, countWarn_cons_warn, countErr_cons_warn, countInfo_cons_warn,
      countWarn_cons_info, countErr_cons_info, countInfo_cons_info,
      countWarn_nil, countErr_nil, countInfo_nil]

end PackageCompat

namespace PackageCompat

theorem andThen_none {r : CheckState × Option CheckErr}
    {f : CheckState → CheckState × Option CheckErr} (h : r.2 = none) :
    andThen r f = f r.1 := by
  rcases r with ⟨s, _ | e⟩
  · rfl
  · cases h

theorem andThen_some {r : CheckState × Option CheckErr}
    {f : CheckState → CheckState × Option CheckErr} {e : CheckErr} (h : r.2 = some e) :
    andThen r f = r := by
  rcases r with ⟨s, _ | e'⟩
  · cases h
  · rfl

theorem engineStep_optional_effect (env : Env) (r : Reference) (hr : r.optional = true)
    (human : String) (s : CheckState) (p : String × String) :
    (engineStep env (some r) human s p).2 = none ∧
    OptEffect s (engineStep env (some r) human s p).1
      (if engineViolation env p then 1 else 0)
      (if engineAdvisory env p then 1 else 0) := by
  rcases hl : env.versions.lookup (resolveAlias p.1) with _ | actual
  · by_cases hc : ignore.contains (resolveAlias p.1) = true
    · simp only [engineStep, engineViolation, engineAdvisory, hl, hc, Bool.not_true,
        Bool.false_eq_true, if_false, if_true]
      exact ⟨by trivial, optEffect_id s⟩
    · simp only [Bool.not_eq_true] at hc
      simp only [engineStep, engineViolation, engineAdvisory, hl, hc, Bool.not_false,
        Bool.false_eq_true, if_false, if_true]
      refine ⟨by trivial, ?_⟩
      unfold OptEffect
      refine ⟨rfl, ?_, ?_, ?_, ?_, ?_⟩ <;>
        simp [countErr_append, countErr_cons_warn, countErr_nil, countWarn_append,
          countWarn_cons_warn, countWarn_nil, countInfo_append, countInfo_cons_warn,
          countInfo_nil]
  · by_cases hs : env.satisfies actual p.2 = true
    · simp only [engineStep, engineViolation, engineAdvisory, hl, hs, Bool.not_true,
        Bool.false_eq_true, if_false, if_true]
      exact ⟨by trivial, optEffect_id s⟩
    · simp only [Bool.not_eq_true] at hs
      simp only [engineStep, engineViolation, engineAdvisory, hl, hs, Bool.not_false,
        Bool.false_eq_true, if_false, if_true]
      exact ⟨(pushError_optional_effect r hr human _ s).1,
        (pushError_optional_effect r hr human _ s).2⟩

theorem engineLoop_optional_effect (env : Env) (r : Reference) (hr : r.optional = true)
    (human : String) :
    ∀ (l : List (String × String)) (s : CheckState),
      (engineLoop env (some r) human l s).2 = none ∧
      OptEffect s (engineLoop env (some r) human l s).1
        (l.countP (engineViolation env)) (l.countP (engineAdvisory env)) := by
  intro l
  induction l with
  | nil =>
    intro s
    exact ⟨rfl, optEffect_id s⟩
  | cons p rest ih =>
    intro s
    obtain ⟨h1, e1⟩ := engineStep_optional_effect env r hr human s p
    have hpair : engineStep env (some r) human s p =
        ((engineStep env (some r) human s p).1, none) := by
      rw [← h1]
    obtain ⟨h2, e2⟩ := ih (engineStep env (some r) human s p).1
    have hv : (p :: rest).countP (engineViolation env) =
        (if engineViolation env p = true then 1 else 0) + rest.countP (engineViolation env) := by
      rw [List.countP_cons]
      omega
    have ha : (p :: rest).countP (engineAdvisory env) =
        (if engineAdvisory env p = true then 1 else 0) + rest.countP (engineAdvisory env) := by
      rw [List.countP_cons]
      omega
    rw [engineLoop, hpair, hv, ha]
    exact ⟨h2, optEffect_comp e1 e2⟩

end PackageCompat

namespace PackageCompat

theorem osStep_optional_effect (env : Env) (info : Manifest) (r : Reference)
    (href : info.reference = some r) (hr : r.optional = true)
    (human : String) (s : CheckState) :
    (osStep env info human s).2 = none ∧
    OptEffect s (osStep env info human s).1
      (if osViolation env info then 1 else 0) 0 := by
  rcases hos : info.os with _ | os
  · simp only [osStep, osViolation, hos, Bool.false_eq_true, if_false]
    exact ⟨by trivial, optEffect_id s⟩
  · by_cases hv : isValid os env.platform = true
    · simp only [osStep, osViolation, hos, hv, Bool.not_true, Bool.false_eq_true,
        if_false, if_true]
      exact ⟨by trivial, optEffect_id s⟩
    · simp only [Bool.not_eq_true] at hv
      simp only [osStep, osViolation, hos, hv, href, Bool.not_false, if_true,
        Bool.false_eq_true, if_false]
      exact ⟨(pushError_optional_effect r hr human _ s).1,
        (pushError_optional_effect r hr human _ s).2⟩

theorem cpuStep_optional_effect (env : Env) (info : Manifest) (r : Reference)
    (href : info.reference = some r) (hr : r.optional = true)
    (human : String) (s : CheckState) :
    (cpuStep env info human s).2 = none ∧
    OptEffect s (cpuStep env info human s).1
      (if cpuViolation env info then 1 else 0) 0 := by
  rcases hcpu : info.cpu with _ | cpu
  · simp only [cpuStep, cpuViolation, hcpu, Bool.false_eq_true, if_false]
    exact ⟨by trivial, optEffect_id s⟩
  · by_cases hv : isValid cpu env.arch = true
    · simp only [cpuStep, cpuViolation, hcpu, hv, Bool.not_true, Bool.false_eq_true,
        if_false, if_true]
      exact ⟨by trivial, optEffect_id s⟩
    · simp only [Bool.not_eq_true] at hv
      simp only [cpuStep, cpuViolation, hcpu, hv, href, Bool.not_false, if_true,
        Bool.false_eq_true, if_false]
      exact ⟨(pushError_optional_effect r hr human _ s).1,
        (pushError_optional_effect r hr human _ s).2⟩

theorem enginesStep_optional_effect (env : Env) (info : Manifest) (r : Reference)
    (href : info.reference = some r) (hr : r.optional = true)
    (human : String) (s : CheckState) :
    (enginesStep env info human s).2 = none ∧
    OptEffect s (enginesStep env info human s).1
      (numEngineViolations env info) (numAdvisories env info) := by
  rcases he : info.engines with _ | l
  · simp only [enginesStep, numEngineViolations, numAdvisories, he]
    exact ⟨by trivial, optEffect_id s⟩
  · simp only [enginesStep, numEngineViolations, numAdvisories, he, href]
    exact engineLoop_optional_effect env r hr human l s

theorem check_eq (env : Env) (info : Manifest) :
    check env info =
      andThen
        (andThen
          (andThen (osStep env info (info.name ++ "@" ++ info.version) initialState)
            (cpuStep env info (info.name ++ "@" ++ info.version)))
          (enginesStep env info (info.name ++ "@" ++ info.version)))
        finalStep := rfl

theorem check_optional_master (env : Env) (info : Manifest) (r : Reference)
    (href : info.reference = some r) (hr : r.optional = true) :
    (check env info).2 = none ∧
    OptEffect initialState (check env info).1
      (numViolations env info) (numAdvisories env info) := by
  obtain ⟨h1, e1⟩ := osStep_optional_effect env info r href hr
    (info.name ++ "@" ++ info.version) initialState
  obtain ⟨h2, e2⟩ := cpuStep_optional_effect env info r href hr
    (info.name ++ "@" ++ info.version)
    ((osStep env info (info.name ++ "@" ++ info.version) initialState).1)
  obtain ⟨h3, e3⟩ := enginesStep_optional_effect env info r href hr
    (info.name ++ "@" ++ info.version)
    ((cpuStep env info (info.name ++ "@" ++ info.version)
      ((osStep env info (info.name ++ "@" ++ info.version) initialState).1)).1)
  have e123 := optEffect_comp (optEffect_comp e1 e2) e3
  rw [(by omega : (0 : Nat) + 0 + numAdvisories env info = numAdvisories env info)] at e123
  rw [check_eq env info, andThen_none h1, andThen_none h2, andThen_none h3]
  have hde : ((enginesStep env info (info.name ++ "@" ++ info.version)
      ((cpuStep env info (info.name ++ "@" ++ info.version)
        ((osStep env info (info.name ++ "@" ++ info.version) initialState).1)).1)).1).didError
      = false := e123.1
  rw [finalStep, hde]
  simp only [Bool.false_eq_true, if_false]
  exact ⟨by trivial, e123⟩

end PackageCompat

namespace PackageCompat

/-- C2: with an optional reference, `check` never throws: no error-level
message is reported, every violation is reported as a warning (alongside
the advisory warnings) and triggers an `addIgnore(true)` call, and the
call returns normally. -/
theorem check_optional_never_fatal (env : Env) (info : Manifest) (r : Reference)
    (href : info.reference = some r) (hr : r.optional = true) :
    (check env info).2 = none ∧
    countErr (check env info).1.msgs = 0 ∧
    (check env info).1.ignores = numViolations env info ∧
    countWarn (check env info).1.msgs =
      numViolations env info + numAdvisories env info := by
  obtain ⟨h, e1, e2, e3, e4, e5, e6⟩ := check_optional_master env info r href hr
  refine ⟨h, ?_, ?_, ?_⟩
  · rw [e4]
    rfl
  · rw [e2]
    show 0 + numViolations env info = numViolations env info
    omega
  · rw [e5]
    show 0 + numViolations env info + numAdvisories env info =
      numViolations env info + numAdvisories env info
    omega

/-- C2 (witness at a concrete input). -/
theorem check_optional_never_fatal_witness :
    ((⟨"pkg", "1.0.0", some ["!win32"], none, none, some ⟨true⟩⟩ : Manifest).reference =
        some ⟨true⟩) ∧
    ((⟨true⟩ : Reference).optional = true) ∧
    ((check ⟨"win32", "x64", [], fun _ _ => true⟩
        ⟨"pkg", "1.0.0", some ["!win32"], none, none, some ⟨true⟩⟩).2 = none ∧
      countErr (check ⟨"win32", "x64", [], fun _ _ => true⟩
        ⟨"pkg", "1.0.0", some ["!win32"], none, none, some ⟨true⟩⟩).1.msgs = 0 ∧
      (check ⟨"win32", "x64", [], fun _ _ => true⟩
        ⟨"pkg", "1.0.0", some ["!win32"], none, none, some ⟨true⟩⟩).1.ignores =
        numViolations ⟨"win32", "x64", [], fun _ _ => true⟩
          ⟨"pkg", "1.0.0", some ["!win32"], none, none, some ⟨true⟩⟩ ∧
      countWarn (check ⟨"win32", "x64", [], fun _ _ => true⟩
        ⟨"pkg", "1.0.0", some ["!win32"], none, none, some ⟨true⟩⟩).1.msgs =
        numViolations ⟨"win32", "x64", [], fun _ _ => true⟩
          ⟨"pkg", "1.0.0", some ["!win32"], none, none, some ⟨true⟩⟩ +
        numAdvisories ⟨"win32", "x64", [], fun _ _ => true⟩
          ⟨"pkg", "1.0.0", some ["!win32"], none, none, some ⟨true⟩⟩) :=
  ⟨rfl, rfl, check_optional_never_fatal _ _ _ rfl rfl⟩

/-- C7: with an optional reference and at least one violation, every
violation produces its own warning and its own `addIgnore(true)` call,
`didIgnore` ends true, and exactly one informational message is emitted
no matter how many violations follow the first. -/
theorem check_optional_single_info (env : Env) (info : Manifest) (r : Reference)
    (href : info.reference = some r) (hr : r.optional = true)
    (hv : 0 < numViolations env info) :
    countInfo (check env info).1.msgs = 1 ∧
    (check env info).1.didIgnore = true ∧
    (check env info).1.ignores = numViolations env info ∧
    countWarn (check env info).1.msgs =
      numViolations env info + numAdvisories env info ∧
    (check env info).2 = none := by
  obtain ⟨h, e1, e2, e3, e4, e5, e6⟩ := check_optional_master env info r href hr
  refine ⟨?_, ?_, ?_, ?_, h⟩
  · rw [e6]
    show (0 : Nat) +
      (if (false : Bool) = true then 0
       else if 0 < numViolations env info then 1 else 0) = 1
    simp [hv]
  · rw [e3]
    show (false || decide (0 < numViolations env info)) = true
    simp [hv]
  · rw [e2]
    show 0 + numViolations env info = numViolations env info
    omega
  · rw [e5]
    show 0 + numViolations env info + numAdvisories env info =
      numViolations env info + numAdvisories env info
    omega

/-- C7 (witness at a concrete input with two violations). -/
theorem check_optional_single_info_witness :
    ((⟨"pkg", "1.0.0", some ["!win32"], some ["arm64"], none, some ⟨true⟩⟩ : Manifest).reference =
        some ⟨true⟩) ∧
    ((⟨true⟩ : Reference).optional = true) ∧
    (0 < numViolations ⟨"win32", "x64", [], fun _ _ => true⟩
        ⟨"pkg", "1.0.0", some ["!win32"], some ["arm64"], none, some ⟨true⟩⟩) ∧
    (countInfo (check ⟨"win32", "x64", [], fun _ _ => true⟩
        ⟨"pkg", "1.0.0", some ["!win32"], some ["arm64"], none, some ⟨true⟩⟩).1.msgs = 1 ∧
      (check ⟨"win32", "x64", [], fun _ _ => true⟩
        ⟨"pkg", "1.0.0", some ["!win32"], some ["arm64"], none, some ⟨true⟩⟩).1.didIgnore = true ∧
      (check ⟨"win32", "x64", [], fun _ _ => true⟩
        ⟨"pkg", "1.0.0", some ["!win32"], some ["arm64"], none, some ⟨true⟩⟩).1.ignores =
        numViolations ⟨"win32", "x64", [], fun _ _ => true⟩
          ⟨"pkg", "1.0.0", some ["!win32"], some ["arm64"], none, some ⟨true⟩⟩ ∧
      countWarn (check ⟨"win32", "x64", [], fun _ _ => true⟩
        ⟨"pkg", "1.0.0", some ["!win32"], some ["arm64"], none, some ⟨true⟩⟩).1.msgs =
        numViolations ⟨"win32", "x64", [], fun _ _ => true⟩
          ⟨"pkg", "1.0.0", some ["!win32"], some ["arm64"], none, some ⟨true⟩⟩ +
        numAdvisories ⟨"win32", "x64", [], fun _ _ => true⟩
          ⟨"pkg", "1.0.0", some ["!win32"], some ["arm64"], none, some ⟨true⟩⟩ ∧
      (check ⟨"win32", "x64", [], fun _ _ => true⟩
        ⟨"pkg", "1.0.0", some ["!win32"], some ["arm64"], none, some ⟨true⟩⟩).2 = none) :=
  ⟨rfl, rfl, by decide, check_optional_single_info _ _ _ rfl rfl (by decide)⟩

end PackageCompat

namespace PackageCompat

/-- Effect of a fragment of `check` on the state when the reference is
present and not optional: `v` violations each add one error message and
set `didError`, `a` advisory warnings are added, nothing else changes. -/
def ErrEffect (s s' : CheckState) (v a : Nat) : Prop :=
  s'.didError = (s.didError || decide (0 < v)) ∧
  s'.ignores = s.ignores ∧
  s'.didIgnore = s.didIgnore ∧
  countErr s'.msgs = countErr s.msgs + v ∧
  countWarn s'.msgs = countWarn s.msgs + a ∧
  countInfo s'.msgs = countInfo s.msgs

theorem errEffect_id (s : CheckState) : ErrEffect s s 0 0 := by
  unfold ErrEffect
  simp

theorem errEffect_comp {s s' s'' : CheckState} {v1 a1 v2 a2 : Nat}
    (h1 : ErrEffect s s' v1 a1) (h2 : ErrEffect s' s'' v2 a2) :
    ErrEffect s s'' (v1 + v2) (a1 + a2) := by
  obtain ⟨e1, i1, g1, ce1, cw1, ci1⟩ := h1
  obtain ⟨e2, i2, g2, ce2, cw2, ci2⟩ := h2
  refine ⟨?_, i2.trans i1, g2.trans g1, ?_, ?_, ci2.trans ci1⟩
  · rw [e2, e1, Bool.or_assoc]
    congr 1
    rw [Bool.eq_iff_iff]
    simp only [Bool.or_eq_true, decide_eq_true_eq]
    omega
  · omega
  · omega

theorem pushError_nonopt_effect (r : Reference) (hr : r.optional = false)
    (human msg : String) (s : CheckState) :
    (pushError (some r) human msg s).2 = none ∧
    ErrEffect s (pushError (some r) human msg s).1 1 0 := by
  simp [pushError, hr, ErrEffect, countErr_append, countErr_cons_error, countErr_nil,
    countWarn_append, countWarn_cons_error, countWarn_nil, countInfo_append,
    countInfo_cons_error, countInfo_nil]

theorem engineStep_nonopt_effect (env : Env) (r : Reference) (hr : r.optional = false)
    (human : String) (s : CheckState) (p : String × String) :
    (engineStep env (some r) human s p).2 = none ∧
    ErrEffect s (engineStep env (some r) human s p).1
      (if engineViolation env p then 1 else 0)
      (if engineAdvisory env p then 1 else 0) := by
  rcases hl : env.versions.lookup (resolveAlias p.1) with _ | actual
  · by_cases hc : ignore.contains (resolveAlias p.1) = true
    · simp only [engineStep, engineViolation, engineAdvisory, hl, hc, Bool.not_true,
        Bool.false_eq_true, if_false, if_true]
      exact ⟨by trivial, errEffect_id s⟩
    · simp only [Bool.not_eq_true] at hc
      simp only [engineStep, engineViolation, engineAdvisory, hl, hc, Bool.not_false,
        Bool.false_eq_true, if_false, if_true]
      refine ⟨by trivial, ?_⟩
      unfold ErrEffect
      refine ⟨?_, rfl, rfl, ?_, ?_, ?_⟩ <;>
        simp [countErr_append, countErr_cons_warn, countErr_nil, countWarn_append,
          countWarn_cons_warn, countWarn_nil, countInfo_append, countInfo_cons_warn,
          countInfo_nil]
  · by_cases hs : env.satisfies actual p.2 = true
    · simp only [engineStep, engineViolation, engineAdvisory, hl, hs, Bool.not_true,
        Bool.false_eq_true, if_false, if_true]
      exact ⟨by trivial, errEffect_id s⟩
    · simp only [Bool.not_eq_true] at hs
      simp only [engineStep, engineViolation, engineAdvisory, hl, hs, Bool.not_false,
        Bool.false_eq_true, if_false, if_true]
      exact ⟨(pushError_nonopt_effect r hr human _ s).1,
        (pushError_nonopt_effect r hr human _ s).2⟩

theorem engineLoop_nonopt_effect (env : Env) (r : Reference) (hr : r.optional = false)
    (human : String) :
    ∀ (l : List (String × String)) (s : CheckState),
      (engineLoop env (some r) human l s).2 = none ∧
      ErrEffect s (engineLoop env (some r) human l s).1
        (l.countP (engineViolation env)) (l.countP (engineAdvisory env)) := by
  intro l
  induction l with
  | nil =>
    intro s
    exact ⟨rfl, errEffect_id s⟩
  | cons p rest ih =>
    intro s
    obtain ⟨h1, e1⟩ := engineStep_nonopt_effect env r hr human s p
    have hpair : engineStep env (some r) human s p =
        ((engineStep env (some r) human s p).1, none) := by
      rw [← h1]
    obtain ⟨h2, e2⟩ := ih (engineStep env (some r) human s p).1
    have hv : (p :: rest).countP (engineViolation env) =
        (if engineViolation env p = true then 1 else 0) + rest.countP (engineViolation env) := by
      rw [List.countP_cons]
      omega
    have ha : (p :: rest).countP (engineAdvisory env) =
        (if engineAdvisory env p = true then 1 else 0) + rest.countP (engineAdvisory env) := by
      rw [List.countP_cons]
      omega
    rw [engineLoop, hpair, hv, ha]
    exact ⟨h2, errEffect_comp e1 e2⟩

theorem osStep_nonopt_effect (env : Env) (info : Manifest) (r : Reference)
    (href : info.reference = some r) (hr : r.optional = false)
    (human : String) (s : CheckState) :
    (osStep env info human s).2 = none ∧
    ErrEffect s (osStep env info human s).1
      (if osViolation env info then 1 else 0) 0 := by
  rcases hos : info.os with _ | os
  · simp only [osStep, osViolation, hos, Bool.false_eq_true, if_false]
    exact ⟨by trivial, errEffect_id s⟩
  · by_cases hv : isValid os env.platform = true
    · simp only [osStep, osViolation, hos, hv, Bool.not_true, Bool.false_eq_true,
        if_false, if_true]
      exact ⟨by trivial, errEffect_id s⟩
    · simp only [Bool.not_eq_true] at hv
      simp only [osStep, osViolation, hos, hv, href, Bool.not_false, if_true,
        Bool.false_eq_true, if_false]
      exact ⟨(pushError_nonopt_effect r hr human _ s).1,
        (pushError_nonopt_effect r hr human _ s).2⟩

theorem cpuStep_nonopt_effect (env : Env) (info : Manifest) (r : Reference)
    (href : info.reference = some r) (hr : r.optional = false)
    (human : String) (s : CheckState) :
    (cpuStep env info human s).2 = none ∧
    ErrEffect s (cpuStep env info human s).1
      (if cpuViolation env info then 1 else 0) 0 := by
  rcases hcpu : info.cpu with _ | cpu
  · simp only [cpuStep, cpuViolation, hcpu, Bool.false_eq_true, if_false]
    exact ⟨by trivial, errEffect_id s⟩
  · by_cases hv : isValid cpu env.arch = true
    · simp only [cpuStep, cpuViolation, hcpu, hv, Bool.not_true, Bool.false_eq_true,
        if_false, if_true]
      exact ⟨by trivial, errEffect_id s⟩
    · simp only [Bool.not_eq_true] at hv
      simp only [cpuStep, cpuViolation, hcpu, hv, href, Bool.not_false, if_true,
        Bool.false_eq_true, if_false]
      exact ⟨(pushError_nonopt_effect r hr human _ s).1,
        (pushError_nonopt_effect r hr human _ s).2⟩

theorem enginesStep_nonopt_effect (env : Env) (info : Manifest) (r : Reference)
    (href : info.reference = some r) (hr : r.optional = false)
    (human : String) (s : CheckState) :
    (enginesStep env info human s).2 = none ∧
    ErrEffect s (enginesStep env info human s).1
      (numEngineViolations env info) (numAdvisories env info) := by
  rcases he : info.engines with _ | l
  · simp only [enginesStep, numEngineViolations, numAdvisories, he]
    exact ⟨by trivial, errEffect_id s⟩
  · simp only [enginesStep, numEngineViolations, numAdvisories, he, href]
    exact engineLoop_nonopt_effect env r hr human l s

theorem check_nonopt_master (env : Env) (info : Manifest) (r : Reference)
    (href : info.reference = some r) (hr : r.optional = false) :
    (check env info).2 =
      (if 0 < numViolations env info
       then some (CheckErr.messageError "Found incompatible module") else none) ∧
    ErrEffect initialState (check env info).1
      (numViolations env info) (numAdvisories env info) := by
  obtain ⟨h1, e1⟩ := osStep_nonopt_effect env info r href hr
    (info.name ++ "@" ++ info.version) initialState
  obtain ⟨h2, e2⟩ := cpuStep_nonopt_effect env info r href hr
    (info.name ++ "@" ++ info.version)
    ((osStep env info (info.name ++ "@" ++ info.version) initialState).1)
  obtain ⟨h3, e3⟩ := enginesStep_nonopt_effect env info r href hr
    (info.name ++ "@" ++ info.version)
    ((cpuStep env info (info.name ++ "@" ++ info.version)
      ((osStep env info (info.name ++ "@" ++ info.version) initialState).1)).1)
  have e123 := errEffect_comp (errEffect_comp e1 e2) e3
  rw [(by omega : (0 : Nat) + 0 + numAdvisories env info = numAdvisories env info)] at e123
  rw [check_eq env info, andThen_none h1, andThen_none h2, andThen_none h3]
  have hde : ((enginesStep env info (info.name ++ "@" ++ info.version)
      ((cpuStep env info (info.name ++ "@" ++ info.version)
        ((osStep env info (info.name ++ "@" ++ info.version) initialState).1)).1)).1).didError
      = (false || decide (0 < numViolations env info)) := e123.1
  rw [finalStep, hde]
  by_cases hv : 0 < numViolations env info
  · have hc : (false || decide (0 < numViolations env info)) = true := by simp [hv]
    rw [hc, if_pos rfl, if_pos hv]
    exact ⟨rfl, e123⟩
  · have hc : (false || decide (0 < numViolations env info)) = false := by simp [hv]
    rw [hc, if_neg (by simp), if_neg hv]
    exact ⟨rfl, e123⟩

end PackageCompat

namespace PackageCompat

/-- C3: with a present, non-optional reference, `check` throws the fatal
`MessageError` exactly when at least one OS/CPU/engine violation exists;
every violation (across all three categories, none short-circuited) is
reported as its own error-level message held in the state before the
throw, advisory warnings are still reported, and no informational message
or `addIgnore` call happens. -/
theorem check_nonoptional_fatal_iff (env : Env) (info : Manifest) (r : Reference)
    (href : info.reference = some r) (hr : r.optional = false) :
    ((check env info).2 = some (CheckErr.messageError "Found incompatible module") ↔
      0 < numViolations env info) ∧
    countErr (check env info).1.msgs = numViolations env info ∧
    countWarn (check env info).1.msgs = numAdvisories env info ∧
    countInfo (check env info).1.msgs = 0 ∧
    (check env info).1.ignores = 0 := by
  obtain ⟨h, e1, e2, e3, e4, e5, e6⟩ := check_nonopt_master env info r href hr
  refine ⟨?_, ?_, ?_, ?_, ?_⟩
  · rw [h]
    by_cases hv : 0 < numViolations env info
    · simp [hv]
    · simp [hv]
  · rw [e4]
    show 0 + numViolations env info = numViolations env info
    omega
  · rw [e5]
    show 0 + numAdvisories env info = numAdvisories env info
    omega
  · rw [e6]
    rfl
  · rw [e2]
    rfl

/-- C3 (witness: a non-optional manifest with an OS violation). -/
theorem check_nonoptional_fatal_iff_witness :
    ((⟨"pkg", "1.0.0", some ["!win32"], none, none, some ⟨false⟩⟩ : Manifest).reference =
        some ⟨false⟩) ∧
    ((⟨false⟩ : Reference).optional = false) ∧
    (((check ⟨"win32", "x64", [], fun _ _ => true⟩
        ⟨"pkg", "1.0.0", some ["!win32"], none, none, some ⟨false⟩⟩).2 =
          some (CheckErr.messageError "Found incompatible module") ↔
        0 < numViolations ⟨"win32", "x64", [], fun _ _ => true⟩
          ⟨"pkg", "1.0.0", some ["!win32"], none, none, some ⟨false⟩⟩) ∧
      countErr (check ⟨"win32", "x64", [], fun _ _ => true⟩
        ⟨"pkg", "1.0.0", some ["!win32"], none, none, some ⟨false⟩⟩).1.msgs =
        numViolations ⟨"win32", "x64", [], fun _ _ => true⟩
          ⟨"pkg", "1.0.0", some ["!win32"], none, none, some ⟨false⟩⟩ ∧
      countWarn (check ⟨"win32", "x64", [], fun _ _ => true⟩
        ⟨"pkg", "1.0.0", some ["!win32"], none, none, some ⟨false⟩⟩).1.msgs =
        numAdvisories ⟨"win32", "x64", [], fun _ _ => true⟩
          ⟨"pkg", "1.0.0", some ["!win32"], none, none, some ⟨false⟩⟩ ∧
      countInfo (check ⟨"win32", "x64", [], fun _ _ => true⟩
        ⟨"pkg", "1.0.0", some ["!win32"], none, none, some ⟨false⟩⟩).1.msgs = 0 ∧
      (check ⟨"win32", "x64", [], fun _ _ => true⟩
        ⟨"pkg", "1.0.0", some ["!win32"], none, none, some ⟨false⟩⟩).1.ignores = 0) :=
  ⟨rfl, rfl, check_nonoptional_fatal_iff _ _ _ rfl rfl⟩

end PackageCompat

namespace PackageCompat

theorem andThen_pair_none (s : CheckState)
    (f : CheckState → CheckState × Option CheckErr) : andThen (s, none) f = f s := rfl

theorem andThen_pair_some (s : CheckState) (e : CheckErr)
    (f : CheckState → CheckState × Option CheckErr) : andThen (s, some e) f = (s, some e) := rfl

theorem osStep_none_fault (env : Env) (info : Manifest) (human : String) (s : CheckState)
    (href : info.reference = none) (hv : osViolation env info = true) :
    osStep env info human s = (s, some (CheckErr.invariantFault "expected package reference")) := by
  rcases hos : info.os with _ | os
  · rw [osViolation, hos] at hv
    cases hv
  · rw [osViolation, hos] at hv
    simp only [Bool.not_eq_eq_eq_not, Bool.not_true] at hv
    simp only [osStep, hos, hv, Bool.false_eq_true, if_false, href, pushError]

theorem osStep_no_violation (env : Env) (info : Manifest) (human : String) (s : CheckState)
    (hv : osViolation env info = false) : osStep env info human s = (s, none) := by
  rcases hos : info.os with _ | os
  · simp [osStep, hos]
  · rw [osViolation, hos] at hv
    simp only [Bool.not_eq_eq_eq_not, Bool.not_false] at hv
    simp [osStep, hos, hv]

theorem cpuStep_none_fault (env : Env) (info : Manifest) (human : String) (s : CheckState)
    (href : info.reference = none) (hv : cpuViolation env info = true) :
    cpuStep env info human s = (s, some (CheckErr.invariantFault "expected package reference")) := by
  rcases hcpu : info.cpu with _ | cpu
  · rw [cpuViolation, hcpu] at hv
    cases hv
  · rw [cpuViolation, hcpu] at hv
    simp only [Bool.not_eq_eq_eq_not, Bool.not_true] at hv
    simp only [cpuStep, hcpu, hv, Bool.false_eq_true, if_false, href, pushError]

theorem cpuStep_no_violation (env : Env) (info : Manifest) (human : String) (s : CheckState)
    (hv : cpuViolation env info = false) : cpuStep env info human s = (s, none) := by
  rcases hcpu : info.cpu with _ | cpu
  · simp [cpuStep, hcpu]
  · rw [cpuViolation, hcpu] at hv
    simp only [Bool.not_eq_eq_eq_not, Bool.not_false] at hv
    simp [cpuStep, hcpu, hv]

theorem engineStep_none_violation (env : Env) (human : String) (s : CheckState)
    (p : String × String) (hv : engineViolation env p = true) :
    engineStep env none human s p =
      (s, some (CheckErr.invariantFault "expected package reference")) := by
  rcases hl : env.versions.lookup (resolveAlias p.1) with _ | actual
  · rw [engineViolation, hl] at hv
    cases hv
  · rw [engineViolation, hl] at hv
    simp only [Bool.not_eq_eq_eq_not, Bool.not_true] at hv
    simp only [engineStep, hl, hv, Bool.false_eq_true, if_false, pushError]

theorem engineStep_none_no_violation (env : Env) (human : String) (s : CheckState)
    (p : String × String) (hv : engineViolation env p = false) :
    (engineStep env none human s p).2 = none := by
  rcases hl : env.versions.lookup (resolveAlias p.1) with _ | actual
  · simp only [engineStep, hl]
    split <;> rfl
  · rw [engineViolation, hl] at hv
    simp only [Bool.not_eq_eq_eq_not, Bool.not_false] at hv
    simp [engineStep, hl, hv]

theorem engineLoop_none_fault (env : Env) (human : String) :
    ∀ (l : List (String × String)) (s : CheckState),
      0 < l.countP (engineViolation env) →
      (engineLoop env none human l s).2 =
        some (CheckErr.invariantFault "expected package reference") := by
  intro l
  induction l with
  | nil =>
    intro s hv
    simp [List.countP_nil] at hv
  | cons p rest ih =>
    intro s hv
    by_cases hvp : engineViolation env p = true
    · rw [engineLoop, engineStep_none_violation env human s p hvp]
    · simp only [Bool.not_eq_true] at hvp
      have h1 := engineStep_none_no_violation env human s p hvp
      have hpair : engineStep env none human s p =
          ((engineStep env none human s p).1, none) := by
        rw [← h1]
      rw [engineLoop, hpair]
      have hrest : 0 < rest.countP (engineViolation env) := by
        rw [List.countP_cons, hvp] at hv
        simpa using hv
      exact ih _ hrest

/-- C4 (amended): when the reference is missing and the manifest has at
least one violation, `check` throws the internal invariant fault — a
failure distinct from the user-facing `MessageError` — as soon as the
first violation is routed through `pushError`. -/
theorem check_missing_reference_fault (env : Env) (info : Manifest)
    (href : info.reference = none) (hv : 0 < numViolations env info) :
    (check env info).2 = some (CheckErr.invariantFault "expected package reference") := by
  rw [check_eq env info]
  by_cases hos : osViolation env info = true
  · rw [osStep_none_fault env info _ initialState href hos, andThen_pair_some,
      andThen_pair_some, andThen_pair_some]
  · simp only [Bool.not_eq_true] at hos
    rw [osStep_no_violation env info _ initialState hos, andThen_pair_none]
    by_cases hcpu : cpuViolation env info = true
    · rw [cpuStep_none_fault env info _ initialState href hcpu, andThen_pair_some,
        andThen_pair_some]
    · simp only [Bool.not_eq_true] at hcpu
      rw [cpuStep_no_violation env info _ initialState hcpu, andThen_pair_none]
      have hev : 0 < numEngineViolations env info := by
        rw [numViolations, hos, hcpu] at hv
        simpa using hv
      rcases he : info.engines with _ | l
      · rw [numEngineViolations, he] at hev
        exact absurd hev (by simp)
      · have hstep : enginesStep env info (info.name ++ "@" ++ info.version) initialState =
            engineLoop env none (info.name ++ "@" ++ info.version) l initialState := by
          simp only [enginesStep, he, href]
        rw [numEngineViolations, he] at hev
        have hl2 := engineLoop_none_fault env (info.name ++ "@" ++ info.version) l
          initialState hev
        rw [hstep, andThen_some hl2]
        exact hl2

/-- C4 (counterexample): a manifest with no reference and no violations is
checked to completion and returns normally, with no invariant fault. -/
theorem check_missing_reference_counterexample :
    ((⟨"pkg", "1.0.0", none, none, none, none⟩ : Manifest).reference = none) ∧
    check ⟨"linux", "x64", [], fun _ _ => true⟩
      ⟨"pkg", "1.0.0", none, none, none, none⟩ = (initialState, none) :=
  ⟨rfl, rfl⟩

/-- C4 (witness at a concrete input with a violation). -/
theorem check_missing_reference_fault_witness :
    ((⟨"pkg", "1.0.0", some ["!win32"], none, none, none⟩ : Manifest).reference = none) ∧
    (0 < numViolations ⟨"win32", "x64", [], fun _ _ => true⟩
        ⟨"pkg", "1.0.0", some ["!win32"], none, none, none⟩) ∧
    (check ⟨"win32", "x64", [], fun _ _ => true⟩
        ⟨"pkg", "1.0.0", some ["!win32"], none, none, none⟩).2 =
      some (CheckErr.invariantFault "expected package reference") :=
  ⟨rfl, by decide, check_missing_reference_fault _ _ rfl (by decide)⟩

end PackageCompat

namespace PackageCompat

/-- C8: an engines entry whose resolved name has no installed version
either does nothing (resolved name on the fixed ignore list) or appends
exactly one advisory warning naming the engine as invalid; in both cases
the step returns without a throw and changes nothing else in the state
(no violation, no `didError`, no `addIgnore`). -/
theorem engineStep_unknown_engine (env : Env) (ref : Option Reference) (human : String)
    (s : CheckState) (name range : String)
    (h : env.versions.lookup (resolveAlias name) = none) :
    engineStep env ref human s (name, range) =
      (if ignore.contains (resolveAlias name) then s
       else { s with msgs := s.msgs ++
          [Message.warn (human ++ ": The engine " ++ resolveAlias name ++
            " appears to be invalid.")] },
       none) ∧
    (engineStep env ref human s (name, range)).1.ignores = s.ignores ∧
    (engineStep env ref human s (name, range)).1.didError = s.didError ∧
    (engineStep env ref human s (name, range)).2 = none := by
  have hmain : engineStep env ref human s (name, range) =
      (if ignore.contains (resolveAlias name) then s
       else { s with msgs := s.msgs ++
          [Message.warn (human ++ ": The engine " ++ resolveAlias name ++
            " appears to be invalid.")] },
       none) := by
    simp only [engineStep, h]
    by_cases hc : ignore.contains (resolveAlias name) = true
    · rw [if_pos hc, if_pos hc]
    · rw [if_neg hc, if_neg hc]
  refine ⟨hmain, ?_, ?_, ?_⟩ <;> rw [hmain]
  · by_cases hc : ignore.contains (resolveAlias name) = true
    · rw [if_pos hc]
    · rw [if_neg hc]
  · by_cases hc : ignore.contains (resolveAlias name) = true
    · rw [if_pos hc]
    · rw [if_neg hc]

/-- C8 (witness: an unknown engine not on the ignore list, and one on
the ignore list). -/
theorem engineStep_unknown_engine_witness :
    ((⟨"linux", "x64", [("node", "18.0.0")], fun _ _ => true⟩ : Env).versions.lookup
        (resolveAlias "someUnknownTool") = none) ∧
    (engineStep ⟨"linux", "x64", [("node", "18.0.0")], fun _ _ => true⟩ none "pkg@1.0.0"
        initialState ("someUnknownTool", "*") =
      (if ignore.contains (resolveAlias "someUnknownTool") then initialState
       else { initialState with msgs := initialState.msgs ++
          [Message.warn ("pkg@1.0.0" ++ ": The engine " ++ resolveAlias "someUnknownTool" ++
            " appears to be invalid.")] },
       none) ∧
      (engineStep ⟨"linux", "x64", [("node", "18.0.0")], fun _ _ => true⟩ none "pkg@1.0.0"
        initialState ("someUnknownTool", "*")).1.ignores = initialState.ignores ∧
      (engineStep ⟨"linux", "x64", [("node", "18.0.0")], fun _ _ => true⟩ none "pkg@1.0.0"
        initialState ("someUnknownTool", "*")).1.didError = initialState.didError ∧
      (engineStep ⟨"linux", "x64", [("node", "18.0.0")], fun _ _ => true⟩ none "pkg@1.0.0"
        initialState ("someUnknownTool", "*")).2 = none) :=
  ⟨rfl, engineStep_unknown_engine _ _ _ _ _ _ rfl⟩

/-- C9: the batch driver checks the manifests in resolver order and does
not catch throws: when every manifest of `pre` checks cleanly and `m`
throws, `init` returns the states of exactly the manifests of `pre`
followed by `m` and propagates the throw, never reaching `post`. -/
theorem init_stops_at_first_failure (env : Env) (pre post : List Manifest)
    (m : Manifest) (e : CheckErr)
    (hpre : ∀ x ∈ pre, (check env x).2 = none)
    (hm : (check env m).2 = some e) :
    init env (pre ++ m :: post) =
      (pre.map (fun x => (check env x).1) ++ [(check env m).1], some e) := by
  induction pre with
  | nil =>
    have hpair : check env m = ((check env m).1, some e) := by
      rw [← hm]
    rw [List.nil_append, init, hpair]
    rfl
  | cons x pre' ih =>
    have hx : (check env x).2 = none := hpre x (List.mem_cons_self x pre')
    have hpair : check env x = ((check env x).1, none) := by
      rw [← hx]
    have ih' := ih (fun y hy => hpre y (List.mem_cons_of_mem x hy))
    rw [List.cons_append, init, hpair]
    simp only [ih', List.map_cons, List.cons_append]

/-- C9 (witness: three manifests, the second fails, the third is never
reached). -/
theorem init_stops_at_first_failure_witness :
    (∀ x ∈ [(⟨"a", "1.0.0", none, none, none, some ⟨false⟩⟩ : Manifest)],
      (check ⟨"win32", "x64", [], fun _ _ => true⟩ x).2 = none) ∧
    ((check ⟨"win32", "x64", [], fun _ _ => true⟩
        ⟨"b", "1.0.0", some ["!win32"], none, none, some ⟨false⟩⟩).2 =
      some (CheckErr.messageError "Found incompatible module")) ∧
    init ⟨"win32", "x64", [], fun _ _ => true⟩
        ([⟨"a", "1.0.0", none, none, none, some ⟨false⟩⟩] ++
          (⟨"b", "1.0.0", some ["!win32"], none, none, some ⟨false⟩⟩ : Manifest) ::
          [⟨"c", "1.0.0", none, none, none, some ⟨false⟩⟩]) =
      ([(⟨"a", "1.0.0", none, none, none, some ⟨false⟩⟩ : Manifest)].map
          (fun x => (check ⟨"win32", "x64", [], fun _ _ => true⟩ x).1) ++
        [(check ⟨"win32", "x64", [], fun _ _ => true⟩
          ⟨"b", "1.0.0", some ["!win32"], none, none, some ⟨false⟩⟩).1],
       some (CheckErr.messageError "Found incompatible module")) :=
  ⟨by decide, by decide,
    init_stops_at_first_failure _ _ _ _ _ (by decide) (by decide)⟩

end PackageCompat
